import Mathlib

/-!
Shallow embedding of the Lead Master signal-ingestion pipeline
(`fetch_signals.py`, `utils.py`) and proofs about it.

Python values coming back from JSON parsing are modelled by `JVal`;
Python `float(...)`, truthiness (`x or 0`), `dict.get` and item
assignment are modelled by explicit functions.  Money amounts and
scores (Python floats) are modelled as rationals.  Stateful code
(the module-global budget counter, the sqlite fetch cache, the
`clients` and `signals` tables) is modelled by explicit state passing.
External services (the chat completion API, the geocoder, the news
fetchers) are modelled as explicit response arguments.

Definitions come first, then the theorems about them.
-/

namespace LeadMaster

/-! JSON values (results of `json.loads`). -/

inductive JVal where
  | jnull : JVal
  | jbool : Bool → JVal
  | jnum  : ℚ → JVal
  | jstr  : String → JVal
  | jarr  : List JVal → JVal
  | jobj  : List (String × JVal) → JVal

/-- Python truthiness of a JSON value (used to model `x or 0`). -/
def pyTruthy : JVal → Bool
  | .jnull => false
  | .jbool b => b
  | .jnum q => q != 0
  | .jstr s => s != ""
  | .jarr l => !l.isEmpty
  | .jobj kvs => !kvs.isEmpty

/-- Python `x or 0`: falsy values are replaced by the number 0. -/
def orZero (v : JVal) : JVal := if pyTruthy v then v else .jnum 0

/-- Decimal digits to a natural number; `none` when a non-digit occurs. -/
def decDigits : List Char → Option ℕ
  | [] => some 0
  | c :: cs =>
    if c.isDigit then
      (decDigits cs).map (fun n => (c.toNat - 48) * 10 ^ cs.length + n)
    else none

/-- Model of Python `float(s)` on a string: optional sign, decimal digits
with an optional fractional part.  `none` models a raised `ValueError`. -/
def pyFloatStr (s : String) : Option ℚ :=
  let t := s.trim
  let sign : ℚ := if t.startsWith "-" then -1 else 1
  let body := if t.startsWith "-" || t.startsWith "+" then t.drop 1 else t
  match body.splitOn "." with
  | [ip] =>
    if ip.isEmpty then none
    else (decDigits ip.toList).map (fun n => sign * n)
  | [ip, fp] =>
    if ip.isEmpty && fp.isEmpty then none
    else
      match decDigits ip.toList, decDigits fp.toList with
      | some i, some f => some (sign * ((i : ℚ) + (f : ℚ) / (10 : ℚ) ^ fp.length))
      | _, _ => none
  | _ => none

/-- Model of the Python builtin `float(...)` on a JSON value.
`none` models a raised `TypeError`/`ValueError`. -/
def pyFloat : JVal → Option ℚ
  | .jnum q => some q
  | .jbool b => some (if b then 1 else 0)
  | .jstr s => pyFloatStr s
  | _ => none

/-- Model of Python `int(s)` on a string: optional sign, decimal digits. -/
def pyIntStr (s : String) : Option ℤ :=
  let t := s.trim
  let sign : ℤ := if t.startsWith "-" then -1 else 1
  let body := if t.startsWith "-" || t.startsWith "+" then t.drop 1 else t
  if body.isEmpty then none
  else (decDigits body.toList).map (fun n => sign * n)

/-- Model of the Python builtin `int(...)` on a JSON value
(truncation toward zero on numbers). -/
def pyInt : JVal → Option ℤ
  | .jnum q => some (if 0 ≤ q then ⌊q⌋ else ⌈q⌉)
  | .jbool b => some (if b then 1 else 0)
  | .jstr s => pyIntStr s
  | _ => none

/-- Python `d.get(key)` on an association-list dictionary. -/
def dictFind : List (String × JVal) → String → Option JVal
  | [], _ => none
  | (k, v) :: rest, key => if k = key then some v else dictFind rest key

/-- Python `d.get(key, dflt)`. -/
def dictGet (kvs : List (String × JVal)) (key : String) (dflt : JVal) : JVal :=
  (dictFind kvs key).getD dflt

/-- Python `d[key] = v` (replace the binding, or append it). -/
def dictSet : List (String × JVal) → String → JVal → List (String × JVal)
  | [], key, v => [(key, v)]
  | (k, w) :: rest, key, v =>
    if k = key then (k, v) :: rest else (k, w) :: dictSet rest key v

/-- Python `x == s` where `s` is known to be a `str`: only equal strings
compare equal; any other JSON value compares unequal. -/
def pyEqStr (v : Option JVal) (s : String) : Bool :=
  match v with
  | some (.jstr t) => t == s
  | _ => false

/-! Budget governor (`budget_ok`, fetch_signals.py lines 91-97).
`BUDGET_USED` is the module-global counter, threaded here as explicit
state.  `DAILY_BUDGET` is the configured ceiling (cents; source default
`int(os.getenv("DAILY_BUDGET_CENTS", "300"))`). -/

def DAILY_BUDGET_DEFAULT : ℚ := 300

/-- Model of `budget_ok(cost)`: returns whether the call is allowed
together with the updated value of the global `BUDGET_USED`. -/
def budget_ok (B used cost : ℚ) : Bool × ℚ :=
  if used + cost > B then (false, used) else (true, used + cost)

/-- A finite sequence of `budget_ok` calls, returning the list of results
and the final counter. -/
def runBudget (B : ℚ) : ℚ → List ℚ → List Bool × ℚ
  | used, [] => ([], used)
  | used, c :: cs =>
    let step := budget_ok B used c
    let rest := runBudget B step.2 cs
    (step.1 :: rest.1, rest.2)

/-- Sum of the costs whose corresponding `budget_ok` call returned true. -/
def acceptedSum : List ℚ → List Bool → ℚ
  | [], _ => 0
  | _ :: _, [] => 0
  | c :: cs, b :: bs => (if b then c else 0) + acceptedSum cs bs

/-! Deduplicator (`dedup`, fetch_signals.py lines 107-116).
A candidate row is a Python dict; `dedup` reads the keys `title`,
`headline` and `url` (optional fields model missing keys). -/

structure NewsRow where
  title    : Option String
  headline : Option String
  url      : Option String
  seendate : Option String

/-- Python `a or b` on strings. -/
def pyOrStr (a b : String) : String := if a = "" then b else a

/-- The title key used by `dedup`:
`(r.get("title","") or r.get("headline","")).lower()`. -/
def keyT (r : NewsRow) : String :=
  (pyOrStr ((r.title).getD "") ((r.headline).getD "")).toLower

/-- The url key used by `dedup`: `r.get("url","").lower()`. -/
def keyU (r : NewsRow) : String := ((r.url).getD "").toLower

def dedupAux : List String → List String → List NewsRow → List NewsRow
  | _, _, [] => []
  | seenT, seenU, r :: rs =>
    if keyT r ∈ seenT ∨ keyU r ∈ seenU then dedupAux seenT seenU rs
    else r :: dedupAux (keyT r :: seenT) (keyU r :: seenU) rs

def dedup (rows : List NewsRow) : List NewsRow := dedupAux [] [] rows

/-! Geocoder (`_geo` / `safe_geocode`, fetch_signals.py lines 118-129).
The external Nominatim geocoder is modelled by an argument
`g : String → Option (ℚ × ℚ)`; `none` covers both "not found" and a
raised exception (caught by `_geo`). -/

/-- Model of `_geo(q)`:
`(loc.latitude, loc.longitude) if loc else (None, None)`. -/
def geo (g : String → Option (ℚ × ℚ)) (q : String) : Option ℚ × Option ℚ :=
  match g q with
  | some p => (some p.1, some p.2)
  | none => (none, none)

/-- Model of `safe_geocode(headline, company)`. -/
def safe_geocode (g : String → Option (ℚ × ℚ)) (headline company : String) :
    Option ℚ × Option ℚ :=
  let r := geo g headline
  if r.1 = none ∨ r.2 = none then geo g (company ++ " headquarters") else r

/-- A concrete geocoder used as a witness input: only
`"Acme Corp headquarters"` resolves. -/
def acmeGeocoder : String → Option (ℚ × ℚ) :=
  fun s => if s = "Acme Corp headquarters" then some (40, -75) else none

/-! Fetch cache and news fetch (`_cached` / `_store` / `gdelt_headlines`,
fetch_signals.py lines 70-88 and 132-158).
The sqlite cache table is modelled as an association list
`key ↦ (data, ts)`; `INSERT OR REPLACE` replaces the binding.  The
network fetch is an argument `fetchResult : Option (List Article)`
(`none` models any raised exception, which the code turns into `[]`).
Timestamps are integers (`int(time.time())`). -/

structure Article where
  title       : Option String
  url         : Option String
  publishedAt : Option String

abbrev FetchCache := List (String × List NewsRow × ℤ)

/-- TTL of `_cached` (source default `ttl: int = 86400`). -/
def CACHE_TTL : ℤ := 86400

def cacheLookup : FetchCache → String → Option (List NewsRow × ℤ)
  | [], _ => none
  | (k, d, t) :: rest, key =>
    if k = key then some (d, t) else cacheLookup rest key

/-- Model of `_cached(key)`: the stored list when present and fresh,
else `None`. -/
def cached (cache : FetchCache) (now : ℤ) (key : String) : Option (List NewsRow) :=
  match cacheLookup cache key with
  | some dt => if now - dt.2 < CACHE_TTL then some dt.1 else none
  | none => none

/-- Model of `_store(key, data)` (`INSERT OR REPLACE`). -/
def store (cache : FetchCache) (key : String) (data : List NewsRow) (now : ℤ) :
    FetchCache :=
  (key, data, now) :: cache.filter (fun e => e.1 ≠ key)

/-- The cache key of `gdelt_headlines`: `f"newsapi:{query}:{maxrec}"`. -/
def cacheKey (query : String) (maxrec : ℕ) : String :=
  "newsapi:" ++ query ++ ":" ++ toString maxrec

/-- Normalisation of a NewsAPI article into a candidate-headline row. -/
def normalizeArticle (a : Article) : NewsRow :=
  ⟨some ((a.title).getD ""), none, some ((a.url).getD ""),
    some ((((a.publishedAt).getD "").take 10).replace "-" "")⟩

/-- Model of `gdelt_headlines(query, maxrec)`: read-through cache, fetch
on miss (`none` = the request raised, handled as `out = []`), store,
return. -/
def gdelt_headlines (cache : FetchCache) (now : ℤ)
    (fetchResult : Option (List Article)) (query : String) (maxrec : ℕ) :
    List NewsRow × FetchCache :=
  let key := cacheKey query maxrec
  match cached cache now key with
  | some data => (data, cache)
  | none =>
    let out := match fetchResult with
      | some arts => arts.map normalizeArticle
      | none => []
    (out, store cache key out now)

/-! GPT extraction (`gpt_signal_info`, fetch_signals.py lines 208-230).
The chat response is modelled as `Option (Option JVal)`: the outer
`none` is `safe_chat` returning `None` (rate limit), the inner `none`
is `json.loads` raising on the response content.  The per-call cost is
`0.07`; the global `BUDGET_USED` is threaded as explicit state. -/

def SIG_COST : ℚ := 7/100
def SUM_COST : ℚ := 1/2

structure SigInfo where
  company : JVal
  score   : ℚ

def sigDefault : SigInfo := ⟨.jstr "Unknown", 0⟩

/-- Model of `gpt_signal_info(head)`: returns the extraction result
together with the updated `BUDGET_USED`.  All parse failures produce
`{"company": "Unknown", "score": 0.0}`. -/
def gpt_signal_info (B used : ℚ) (rsp : Option (Option JVal)) : SigInfo × ℚ :=
  if used + SIG_COST > B then (sigDefault, used)
  else
    let used' := used + SIG_COST
    match rsp with
    | some (some (.jobj kvs)) =>
      match pyFloat (orZero (dictGet kvs "score" (.jnum 0))) with
      | some q => (⟨dictGet kvs "company" (.jstr "Unknown"), q⟩, used')
      | none => (sigDefault, used')
    | _ => (sigDefault, used')

/-! GPT aggregate summary (`gpt_summary`, fetch_signals.py 233-269).
The throttling sleep only delays the call; it does not affect the
returned value and is not modelled.  The response argument carries the
raw content string (used verbatim by the `except` branch) and the
`json.loads` outcome. -/

def fallbackSummary (heads : List String) : List (String × JVal) :=
  [("summary", .jstr (((heads.headD "").take 120) ++ "…")),
   ("sector", .jstr "unknown"), ("confidence", .jnum 0), ("land_flag", .jnum 0)]

def exceptSummary (raw : String) : List (String × JVal) :=
  [("summary", .jstr raw), ("sector", .jstr "unknown"),
   ("confidence", .jnum 0), ("land_flag", .jnum 0)]

/-- Model of `gpt_summary(co, heads)`: returns the summary dict together
with the updated `BUDGET_USED`.
`out["confidence"] = float(out.get("confidence",0) or 0)` and
`out["land_flag"] = int(out.get("land_flag",0) or 0)` must both succeed,
else the `except` branch returns the raw content with confidence 0. -/
def gpt_summary (B used : ℚ) (heads : List String)
    (rsp : Option (String × Option JVal)) : List (String × JVal) × ℚ :=
  if heads.isEmpty then
    ([("summary", .jstr "No signals"), ("sector", .jstr "unknown"),
      ("confidence", .jnum 0), ("land_flag", .jnum 0)], used)
  else if used + SUM_COST > B then (fallbackSummary heads, used)
  else
    let used' := used + SUM_COST
    match rsp with
    | none => (fallbackSummary heads, used')
    | some (raw, parsed) =>
      match parsed with
      | some (.jobj kvs) =>
        match pyFloat (orZero (dictGet kvs "confidence" (.jnum 0))),
              pyInt (orZero (dictGet kvs "land_flag" (.jnum 0))) with
        | some c, some lf =>
          (dictSet (dictSet kvs "confidence" (.jnum c)) "land_flag"
            (.jnum (lf : ℚ)), used')
        | _, _ => (exceptSummary raw, used')
      | _ => (exceptSummary raw, used')

/-! Batched extraction (`gpt_batch_signal_info`, fetch_signals.py
lines 181-206).
Per chunk of 10 headlines, one chat call is made without consulting
the budget governor.  If the response parses as a JSON array whose
items are dicts and whose `score` fields survive
`float(item.get("score",0) or 0)`, the items are appended and the loop
continues; otherwise the code falls back to one `gpt_signal_info` call
per headline of the chunk (each of which charges the budget).
Iterating a non-list raises unless it is an empty dict or empty string
(zero iterations, `results.extend` of an empty iterable). -/

/-- One item of a parsed batch response:
`item["score"] = float(item.get("score",0) or 0)`. -/
def procItem : JVal → Option (List (String × JVal))
  | .jobj kvs =>
    match pyFloat (orZero (dictGet kvs "score" (.jnum 0))) with
    | some q => some (dictSet kvs "score" (.jnum q))
    | none => none
  | _ => none

/-- The whole `try` body on one chunk response: `none` models a raised
exception (fallback to individual calls). -/
def processArr : JVal → Option (List (List (String × JVal)))
  | .jarr items => items.mapM procItem
  | .jobj [] => some []
  | .jstr "" => some []
  | _ => none

/-- The fallback row `{"headline": h, **tmp}`. -/
def fallbackRow (h : String) (info : SigInfo) : List (String × JVal) :=
  [("headline", .jstr h), ("company", info.company), ("score", .jnum info.score)]

/-- The per-headline fallback loop of one chunk, threading `BUDGET_USED`. -/
def fallbackItems (B : ℚ) (itemRsp : String → Option (Option JVal)) :
    List String → ℚ → List (List (String × JVal)) × ℚ
  | [], used => ([], used)
  | h :: hs, used =>
    let r := gpt_signal_info B used (itemRsp h)
    let rest := fallbackItems B itemRsp hs r.2
    (fallbackRow h r.1 :: rest.1, rest.2)

/-- Slicing as in `range(0, len(headlines), chunk)`, for `chunk ≥ 1`
(`chunk = 0` raises in Python and is out of scope). -/
def chunksOfGo (n : ℕ) : ℕ → List String → List (List String)
  | 0, _ => []
  | _ + 1, [] => []
  | fuel + 1, l => l.take n :: chunksOfGo n fuel (l.drop n)

def chunksOf (n : ℕ) (l : List String) : List (List String) :=
  chunksOfGo n l.length l

/-- The chunk loop of `gpt_batch_signal_info`.  `chunkRsp i` is the chat
response for the i-th chunk, `itemRsp h` the response for a fallback
call on headline `h`. -/
def runChunks (B : ℚ) (itemRsp : String → Option (Option JVal))
    (chunkRsp : ℕ → Option (Option JVal)) :
    List (List String) → ℕ → ℚ → List (List (String × JVal)) × ℚ
  | [], _, used => ([], used)
  | c :: cs, i, used =>
    match chunkRsp i with
    | some (some v) =>
      match processArr v with
      | some parsed =>
        let rest := runChunks B itemRsp chunkRsp cs (i + 1) used
        (parsed ++ rest.1, rest.2)
      | none =>
        let step := fallbackItems B itemRsp c used
        let rest := runChunks B itemRsp chunkRsp cs (i + 1) step.2
        (step.1 ++ rest.1, rest.2)
    | _ =>
      let step := fallbackItems B itemRsp c used
      let rest := runChunks B itemRsp chunkRsp cs (i + 1) step.2
      (step.1 ++ rest.1, rest.2)

/-- Model of `gpt_batch_signal_info(headlines, chunk=10)`, returning the
result list and the final `BUDGET_USED`. -/
def gpt_batch_signal_info (B : ℚ) (itemRsp : String → Option (Option JVal))
    (chunkRsp : ℕ → Option (Option JVal)) (headlines : List String)
    (chunk : ℕ) (used : ℚ) : List (List (String × JVal)) × ℚ :=
  runChunks B itemRsp chunkRsp (chunksOf chunk headlines) 0 used

/-- A chunk response that the batch path accepts. -/
def chunkOk (r : Option (Option JVal)) : Prop :=
  ∃ v parsed, r = some (some v) ∧ processArr v = some parsed

/-! Broad-scan grouping (`national_scan`, fetch_signals.py lines 434-444).
For each deduplicated prospect the scan walks the extraction results;
an `inf` whose `float(inf.get("score",0) or 0)` raises is skipped
(`except: continue`); the first `inf` whose `headline` equals the
prospect's headline and whose score is `>= RELEVANCE_CUTOFF` assigns
the prospect to that company group and stops the walk. -/

def RELEVANCE_CUTOFF : ℚ := 45/100

structure Prospect where
  headline : String
  url      : String
  date     : String
  src      : String

/-- The inner `for inf in infos` loop for one prospect headline:
`some c` means the prospect lands in company group `c`. -/
def assignCompany (h : String) : List (List (String × JVal)) → Option JVal
  | [] => none
  | inf :: rest =>
    match pyFloat (orZero (dictGet inf "score" (.jnum 0))) with
    | none => assignCompany h rest
    | some sc =>
      if pyEqStr (dictFind inf "headline") h = true ∧ RELEVANCE_CUTOFF ≤ sc then
        some (dictGet inf "company" (.jstr "Unknown"))
      else assignCompany h rest

/-- The `by_co` grouping, flattened to (company, prospect) pairs: a
prospect appears (with its company) iff the loop assigned it. -/
def scanGroups (infos : List (List (String × JVal))) (ps : List Prospect) :
    List (JVal × Prospect) :=
  ps.filterMap (fun p => (assignCompany p.headline infos).map (fun c => (c, p)))

/-! Persistence (`write_signals`, fetch_signals.py lines 383-394, and the
per-company client upsert, lines 469-481; schema from
`utils.ensure_tables`).

The `signals` table (utils.py) has an autoincrement `id` primary key
and no uniqueness constraint on (company, headline); each
`INSERT INTO signals(...)` appends a row, so the table is a list.

The `clients` table is keyed by `name`; `INSERT OR REPLACE INTO
clients(name,summary,sector_tags,status,lat,lon) VALUES(..., "New", ...)`
replaces the whole row for that name, with `status` hard-coded to
`"New"`.  `json.dumps([info["sector"]])` is modelled structurally as
the one-element list. -/

structure SignalRow where
  company      : JVal
  date         : String
  headline     : String
  url          : String
  source_label : String
  land_flag    : JVal
  sector_guess : JVal
  lat          : Option ℚ
  lon          : Option ℚ

/-- Model of `write_signals(rows, conn)`: one plain `INSERT` per row. -/
def write_signals (rows : List SignalRow) (table : List SignalRow) :
    List SignalRow :=
  table ++ rows

structure ClientRow where
  summary     : JVal
  sector_tags : List JVal
  status      : String
  lat         : Option ℚ
  lon         : Option ℚ

abbrev ClientsTable := List (String × ClientRow)

/-- Model of `INSERT OR REPLACE` into `clients`, keyed by the primary
key `name`. -/
def clientsUpsert (db : ClientsTable) (name : String) (row : ClientRow) :
    ClientsTable :=
  (name, row) :: db.filter (fun e => e.1 ≠ name)

def clientsLookup : ClientsTable → String → Option ClientRow
  | [], _ => none
  | (k, r) :: rest, name => if k = name then some r else clientsLookup rest name

/-- The client upsert performed by `national_scan` for a company group:
status is the literal `"New"`. -/
def scanClientUpsert (db : ClientsTable) (co : String) (summary sector : JVal)
    (lat lon : Option ℚ) : ClientsTable :=
  clientsUpsert db co ⟨summary, [sector], "New", lat, lon⟩

/-! Theorems. -/

theorem runBudget_final_eq (B : ℚ) :
    ∀ (cs : List ℚ) (used : ℚ),
      (runBudget B used cs).2 = used + acceptedSum cs (runBudget B used cs).1 := by
  intro cs
  induction cs with
  | nil => intro used; simp [runBudget, acceptedSum]
  | cons c cs ih =>
    intro used
    simp only [runBudget, budget_ok]
    split
    · simpa [acceptedSum] using ih used
    · have h := ih (used + c)
      simp [acceptedSum, h]
      ring

theorem runBudget_final_le (B : ℚ) :
    ∀ (cs : List ℚ) (used : ℚ), used ≤ B → (runBudget B used cs).2 ≤ B := by
  intro cs
  induction cs with
  | nil => intro used h; simpa [runBudget] using h
  | cons c cs ih =>
    intro used h
    simp only [runBudget, budget_ok]
    split
    · exact ih used h
    · next hle => exact ih (used + c) (by linarith [not_lt.mp (by simpa using hle)])

/-- C1: for every finite sequence of `budget_ok(c_i)` calls with each
`c_i ≥ 0`, starting from a fresh zero counter, the sum of the costs for
which `budget_ok` returned true never exceeds the configured daily
ceiling. -/
theorem budget_monotone_ceiling (B : ℚ) (cs : List ℚ)
    (hB : 0 ≤ B) (hcs : ∀ c ∈ cs, 0 ≤ c) :
    acceptedSum cs (runBudget B 0 cs).1 ≤ B := by
  have h1 := runBudget_final_eq B cs 0
  have h2 := runBudget_final_le B cs 0 hB
  linarith

/-- C1 witness: with the default ceiling of 300 cents and the call
sequence `[200, 200, 100]` the accepted total stays within 300. -/
theorem budget_monotone_ceiling_witness :
    acceptedSum [200, 200, 100] (runBudget DAILY_BUDGET_DEFAULT 0 [200, 200, 100]).1
      ≤ DAILY_BUDGET_DEFAULT :=
  budget_monotone_ceiling DAILY_BUDGET_DEFAULT [200, 200, 100]
    (by norm_num [DAILY_BUDGET_DEFAULT])
    (by intro c hc; fin_cases hc <;> norm_num)

theorem mem_dedupAux :
    ∀ (L : List NewsRow) (sT sU : List String) (r : NewsRow),
      r ∈ dedupAux sT sU L → (keyT r ∉ sT ∧ keyU r ∉ sU) ∧ r ∈ L := by
  intro L
  induction L with
  | nil => intro sT sU r h; simp [dedupAux] at h
  | cons a L ih =>
    intro sT sU r h
    simp only [dedupAux] at h
    split at h
    · obtain ⟨hk, hm⟩ := ih sT sU r h
      exact ⟨hk, List.mem_cons_of_mem a hm⟩
    · next hcond =>
      push_neg at hcond
      rcases List.mem_cons.mp h with he | hmem
      · subst he
        exact ⟨hcond, List.mem_cons_self _ _⟩
      · obtain ⟨⟨h1, h2⟩, hm⟩ := ih _ _ r hmem
        refine ⟨⟨?_, ?_⟩, List.mem_cons_of_mem _ hm⟩
        · exact fun hx => h1 (List.mem_cons_of_mem _ hx)
        · exact fun hx => h2 (List.mem_cons_of_mem _ hx)

theorem dedupAux_pairwise :
    ∀ (L : List NewsRow) (sT sU : List String),
      (dedupAux sT sU L).Pairwise (fun a b => keyT a ≠ keyT b ∧ keyU a ≠ keyU b) := by
  intro L
  induction L with
  | nil => intro sT sU; simp [dedupAux]
  | cons a L ih =>
    intro sT sU
    simp only [dedupAux]
    split
    · exact ih sT sU
    · refine List.Pairwise.cons ?_ (ih _ _)
      intro b hb
      obtain ⟨⟨h1, h2⟩, _⟩ := mem_dedupAux L _ _ b hb
      constructor
      · exact fun he => h1 (by simp [← he])
      · exact fun he => h2 (by simp [← he])

/-- C5: the output of `dedup` contains no two rows with the same
lowercase title key and no two rows with the same lowercase url key
(the title key is the code's `title`-or-`headline` fallback). -/
theorem dedup_unique_keys (L : List NewsRow) :
    ((dedup L).Pairwise fun a b => keyT a ≠ keyT b) ∧
      ((dedup L).Pairwise fun a b => keyU a ≠ keyU b) := by
  have h := dedupAux_pairwise L [] []
  exact ⟨h.imp fun hab => hab.1, h.imp fun hab => hab.2⟩

theorem dedupAux_eq_self :
    ∀ (L : List NewsRow) (sT sU : List String),
      (∀ r ∈ L, keyT r ∉ sT ∧ keyU r ∉ sU) →
      L.Pairwise (fun a b => keyT a ≠ keyT b ∧ keyU a ≠ keyU b) →
      dedupAux sT sU L = L := by
  intro L
  induction L with
  | nil => intro sT sU _ _; rfl
  | cons a L ih =>
    intro sT sU hseen hpw
    have ha := hseen a (List.mem_cons_self a L)
    simp only [dedupAux]
    rw [if_neg (by push_neg; exact ha)]
    congr 1
    refine ih _ _ ?_ (List.Pairwise.of_cons hpw)
    intro r hr
    have hne := (List.pairwise_cons.mp hpw).1 r hr
    have hs := hseen r (List.mem_cons_of_mem a hr)
    constructor
    · intro hx
      rcases List.mem_cons.mp hx with he | hx'
      · exact hne.1 he.symm
      · exact hs.1 hx'
    · intro hx
      rcases List.mem_cons.mp hx with he | hx'
      · exact hne.2 he.symm
      · exact hs.2 hx'

/-- C8: `dedup` is idempotent: applying it to its own output returns
that output unchanged. -/
theorem dedup_idempotent (L : List NewsRow) : dedup (dedup L) = dedup L := by
  unfold dedup
  exact dedupAux_eq_self _ [] [] (by intro r _; simp) (dedupAux_pairwise L [] [])

/-- C7: when the primary geocoding attempt on the headline yields no
coordinates, `safe_geocode` returns the result of geocoding
`"<company> headquarters"`; in particular a successful fallback pair is
returned rather than `(none, none)`. -/
theorem safe_geocode_fallback (g : String → Option (ℚ × ℚ))
    (headline company : String) (hfail : g headline = none) :
    safe_geocode g headline company = geo g (company ++ " headquarters") ∧
      ∀ a b : ℚ, g (company ++ " headquarters") = some (a, b) →
        safe_geocode g headline company = (some a, some b) := by
  constructor
  · simp [safe_geocode, geo, hfail]
  · intro a b hg
    simp [safe_geocode, geo, hfail, hg]

/-- C7 witness: `safe_geocode("NoSuchPlace123", "Acme Corp")` returns the
fallback coordinates `(40.0, -75.0)`. -/
theorem safe_geocode_fallback_witness :
    safe_geocode acmeGeocoder "NoSuchPlace123" "Acme Corp" = (some 40, some (-75)) :=
  (safe_geocode_fallback acmeGeocoder "NoSuchPlace123" "Acme Corp"
      (by decide)).2 40 (-75) (by decide)

/-- C9: a failed fetch stores `[]` in the cache under the query key, and
every later call with the same query and max-results within the TTL
returns that cached empty list with the cache unchanged, independently
of any fetch outcome (so no network fetch is attempted). -/
theorem failed_fetch_cached_for_ttl (cache : FetchCache) (now : ℤ)
    (query : String) (maxrec : ℕ)
    (hmiss : cached cache now (cacheKey query maxrec) = none) :
    gdelt_headlines cache now none query maxrec =
      ([], store cache (cacheKey query maxrec) [] now) ∧
    ∀ (t : ℤ) (fetchResult : Option (List Article)), t - now < CACHE_TTL →
      gdelt_headlines (store cache (cacheKey query maxrec) [] now) t
          fetchResult query maxrec =
        ([], store cache (cacheKey query maxrec) [] now) := by
  constructor
  · simp [gdelt_headlines, hmiss]
  · intro t fetchResult ht
    have hhit : cached (store cache (cacheKey query maxrec) [] now) t
        (cacheKey query maxrec) = some [] := by
      simp [cached, store, cacheLookup, ht]
    simp [gdelt_headlines, hhit]

/-- C9 witness: on a fresh cache, a failed fetch for query `"acme"` with
max 5 results yields `[]`, and a repeat call 100 seconds later returns
the cached `[]` even though the fetch would now succeed. -/
theorem failed_fetch_cached_for_ttl_witness :
    gdelt_headlines ((gdelt_headlines [] 0 none "acme" 5).2) 100
        (some [⟨some "T", some "U", some "2025-01-02"⟩]) "acme" 5 =
      ([], (gdelt_headlines [] 0 none "acme" 5).2) := by
  have h := failed_fetch_cached_for_ttl [] 0 "acme" 5 rfl
  have h1 := h.1
  have h2 := h.2 100 (some [⟨some "T", some "U", some "2025-01-02"⟩]) (by decide)
  rw [h1]
  exact h2

theorem pyFloat_orZero_jnum (q : ℚ) : pyFloat (orZero (.jnum q)) = some q := by
  by_cases hq : q = 0
  · subst hq; rfl
  · simp [orZero, pyTruthy, pyFloat, hq]

/-- C4 counterexample: the extraction service returning `score = 1.5`
produces a stored relevance score of `1.5`, outside `[0,1]` — the code
does not clamp. -/
theorem score_not_clamped_counterexample :
    (gpt_signal_info 300 0 (some (some (.jobj
      [("company", .jstr "Acme Corp"), ("score", .jnum (3/2))])))).1.score = 3/2 ∧
    ¬ ((3 : ℚ)/2 ≤ 1) := by
  constructor
  · simp [gpt_signal_info, dictGet, dictFind, pyFloat_orZero_jnum]
    norm_num [SIG_COST]
  · norm_num

/-- C4 amended: non-parsable, missing or unavailable extraction
responses default the score and confidence to 0, but numeric values are
passed through unclamped — values outside `[0,1]` are stored as-is. -/
theorem score_confidence_default_or_passthrough :
    (∀ (q B used : ℚ), used + SIG_COST ≤ B →
      (gpt_signal_info B used (some (some (.jobj
        [("company", .jstr "Acme Corp"), ("score", .jnum q)])))).1.score = q)
    ∧ (∀ B used : ℚ, (gpt_signal_info B used none).1.score = 0)
    ∧ (∀ B used : ℚ, (gpt_signal_info B used (some none)).1.score = 0)
    ∧ (∀ B used : ℚ, (gpt_signal_info B used (some (some (.jobj
        [("company", .jstr "Acme Corp"),
         ("score", .jarr [.jstr "not a number"])])))).1.score = 0)
    ∧ (∀ (q B used : ℚ) (heads : List String) (raw : String), heads ≠ [] →
        used + SUM_COST ≤ B →
        dictGet (gpt_summary B used heads (some (raw, some (.jobj
          [("confidence", .jnum q)])))).1 "confidence" (.jnum 0) = .jnum q) := by
  refine ⟨?_, ?_, ?_, ?_, ?_⟩
  · intro q B used h
    have hb : ¬ (used + SIG_COST > B) := not_lt.mpr h
    simp [gpt_signal_info, hb, dictGet, dictFind, pyFloat_orZero_jnum]
  · intro B used
    by_cases hb : used + SIG_COST > B <;> simp [gpt_signal_info, hb, sigDefault]
  · intro B used
    by_cases hb : used + SIG_COST > B <;> simp [gpt_signal_info, hb, sigDefault]
  · intro B used
    have hpf : pyFloat (orZero (dictGet
        [("company", JVal.jstr "Acme Corp"),
         ("score", JVal.jarr [.jstr "not a number"])]
        "score" (.jnum 0))) = none := by
      simp [dictGet, dictFind, orZero, pyTruthy, pyFloat]
    by_cases hb : used + SIG_COST > B <;>
      simp [gpt_signal_info, hb, sigDefault, hpf]
  · intro q B used heads raw hne h
    have hb : ¬ (used + SUM_COST > B) := not_lt.mpr h
    have hel : heads.isEmpty = false := by simpa [List.isEmpty_iff] using hne
    have hlf : pyInt (orZero (dictGet [("confidence", JVal.jnum q)]
        "land_flag" (.jnum 0))) = some 0 := by
      simp [dictGet, dictFind, orZero, pyTruthy, pyInt]
    simp [gpt_summary, hb, hel, dictGet, dictFind, pyFloat_orZero_jnum, hlf,
      dictSet]

/-- C4 amended witness: with the ceiling at 300 cents and a fresh
counter, the out-of-range value 2 is stored unchanged both as a score
and as a confidence. -/
theorem score_confidence_default_or_passthrough_witness :
    (gpt_signal_info 300 0 (some (some (.jobj
      [("company", .jstr "Acme Corp"), ("score", .jnum 2)])))).1.score = 2 ∧
    dictGet (gpt_summary 300 0 ["Acme expands"] (some ("raw", some (.jobj
      [("confidence", .jnum 2)])))).1 "confidence" (.jnum 0) = .jnum 2 :=
  ⟨score_confidence_default_or_passthrough.1 2 300 0 (by norm_num [SIG_COST]),
   score_confidence_default_or_passthrough.2.2.2.2 2 300 0 ["Acme expands"]
     "raw" (by simp) (by norm_num [SUM_COST])⟩

theorem runChunks_budget_of_ok (B : ℚ) (itemRsp : String → Option (Option JVal))
    (chunkRsp : ℕ → Option (Option JVal)) :
    ∀ (cs : List (List String)) (i : ℕ) (used : ℚ),
      (∀ j, j < cs.length → chunkOk (chunkRsp (i + j))) →
      (runChunks B itemRsp chunkRsp cs i used).2 = used := by
  intro cs
  induction cs with
  | nil => intro i used _; rfl
  | cons c cs ih =>
    intro i used h
    obtain ⟨v, parsed, hr, hp⟩ := by
      simpa using h 0 (by simp)
    simp only [runChunks, hr, hp]
    exact ih (i + 1) used fun j hj => by
      have := h (j + 1) (by simpa using Nat.succ_lt_succ hj)
      simpa [Nat.add_assoc, Nat.add_comm 1 j] using this

/-- C10: when every chunk response of a batched extraction call parses
successfully, the call leaves `BUDGET_USED` unchanged, however many
headlines it processes — the budget is charged only on the per-item
fallback path. -/
theorem batch_parse_preserves_budget (B : ℚ)
    (itemRsp : String → Option (Option JVal))
    (chunkRsp : ℕ → Option (Option JVal)) (headlines : List String)
    (chunk : ℕ) (used : ℚ)
    (h : ∀ j, j < (chunksOf chunk headlines).length → chunkOk (chunkRsp j)) :
    (gpt_batch_signal_info B itemRsp chunkRsp headlines chunk used).2 = used := by
  unfold gpt_batch_signal_info
  exact runChunks_budget_of_ok B itemRsp chunkRsp _ 0 used
    (fun j hj => by simpa using h j hj)

/-- C10 witness: a one-chunk batch whose response parses as a singleton
array leaves the counter at 0. -/
theorem batch_parse_preserves_budget_witness :
    (gpt_batch_signal_info 300 (fun _ => none)
      (fun _ => some (some (.jarr [.jobj
        [("headline", .jstr "Acme builds plant"), ("company", .jstr "Acme"),
         ("score", .jnum 1)]])))
      ["Acme builds plant"] 10 0).2 = 0 :=
  batch_parse_preserves_budget 300 (fun _ => none)
    (fun _ => some (some (.jarr [.jobj
      [("headline", .jstr "Acme builds plant"), ("company", .jstr "Acme"),
       ("score", .jnum 1)]])))
    ["Acme builds plant"] 10 0
    (fun _ _ => ⟨_, [[("headline", JVal.jstr "Acme builds plant"),
      ("company", JVal.jstr "Acme"), ("score", JVal.jnum 1)]], rfl, rfl⟩)

theorem assignCompany_some (h : String) :
    ∀ (infos : List (List (String × JVal))) (c : JVal),
      assignCompany h infos = some c →
      ∃ inf ∈ infos, pyEqStr (dictFind inf "headline") h = true ∧
        ∃ sc, pyFloat (orZero (dictGet inf "score" (.jnum 0))) = some sc ∧
          RELEVANCE_CUTOFF ≤ sc ∧ c = dictGet inf "company" (.jstr "Unknown") := by
  intro infos
  induction infos with
  | nil => intro c hc; simp [assignCompany] at hc
  | cons inf rest ih =>
    intro c hc
    simp only [assignCompany] at hc
    cases hpf : pyFloat (orZero (dictGet inf "score" (.jnum 0))) with
    | none =>
      simp only [hpf] at hc
      obtain ⟨inf', hmem, hx⟩ := ih c hc
      exact ⟨inf', List.mem_cons_of_mem _ hmem, hx⟩
    | some sc =>
      simp only [hpf] at hc
      by_cases hcond : pyEqStr (dictFind inf "headline") h = true ∧
          RELEVANCE_CUTOFF ≤ sc
      · rw [if_pos hcond] at hc
        exact ⟨inf, List.mem_cons_self _ _,
          hcond.1, sc, hpf, hcond.2, (Option.some_injective _ hc).symm⟩
      · rw [if_neg hcond] at hc
        obtain ⟨inf', hmem, hx⟩ := ih c hc
        exact ⟨inf', List.mem_cons_of_mem _ hmem, hx⟩

theorem assignCompany_none_of_low (h : String) :
    ∀ (infos : List (List (String × JVal))),
      (∀ inf ∈ infos, ∀ sc,
        pyFloat (orZero (dictGet inf "score" (.jnum 0))) = some sc →
        sc < RELEVANCE_CUTOFF) →
      assignCompany h infos = none := by
  intro infos
  induction infos with
  | nil => intro _; rfl
  | cons inf rest ih =>
    intro hlow
    simp only [assignCompany]
    cases hpf : pyFloat (orZero (dictGet inf "score" (.jnum 0))) with
    | none => exact ih fun i hi => hlow i (List.mem_cons_of_mem _ hi)
    | some sc =>
      have hsc := hlow inf (List.mem_cons_self _ _) sc hpf
      have hnc : ¬ (pyEqStr (dictFind inf "headline") h = true ∧
          RELEVANCE_CUTOFF ≤ sc) := fun hcond => (not_lt.mpr hcond.2) hsc
      simp only [if_neg hnc]
      exact ih fun i hi => hlow i (List.mem_cons_of_mem _ hi)

/-- C6: a deduplicated prospect is assigned to a company group only via
an extraction result for its headline whose parsed score is at least
`RELEVANCE_CUTOFF` (0.45); if every parsed score is below the cutoff,
no prospect is grouped at all. -/
theorem relevance_cutoff_gate :
    (∀ (infos : List (List (String × JVal))) (ps : List Prospect)
       (c : JVal) (p : Prospect), (c, p) ∈ scanGroups infos ps →
       ∃ inf ∈ infos, pyEqStr (dictFind inf "headline") p.headline = true ∧
         ∃ sc, pyFloat (orZero (dictGet inf "score" (.jnum 0))) = some sc ∧
           RELEVANCE_CUTOFF ≤ sc) ∧
    (∀ (infos : List (List (String × JVal))) (ps : List Prospect),
       (∀ inf ∈ infos, ∀ sc,
         pyFloat (orZero (dictGet inf "score" (.jnum 0))) = some sc →
         sc < RELEVANCE_CUTOFF) →
       scanGroups infos ps = []) := by
  constructor
  · intro infos ps c p hmem
    obtain ⟨p', hp', hf⟩ := List.mem_filterMap.mp hmem
    obtain ⟨c', hc', heq⟩ := Option.map_eq_some'.mp hf
    cases heq
    obtain ⟨inf, hmem', hhead, sc, hpf, hcut, _⟩ :=
      assignCompany_some p.headline infos c hc'
    exact ⟨inf, hmem', hhead, sc, hpf, hcut⟩
  · intro infos ps hlow
    apply List.filterMap_eq_nil_iff.mpr
    intro p _
    rw [assignCompany_none_of_low p.headline infos hlow]
    rfl

/-- C6 witness: with one extraction result of score 0.9 for headline H,
the prospect for H is grouped, and the theorem recovers the qualifying
result. -/
theorem relevance_cutoff_gate_witness :
    ∃ inf ∈ [[("headline", JVal.jstr "H"), ("company", JVal.jstr "Acme Corp"),
        ("score", JVal.jnum (9/10))]],
      pyEqStr (dictFind inf "headline") (Prospect.mk "H" "u" "d" "scan").headline
          = true ∧
      ∃ sc, pyFloat (orZero (dictGet inf "score" (.jnum 0))) = some sc ∧
        RELEVANCE_CUTOFF ≤ sc :=
  relevance_cutoff_gate.1
    [[("headline", JVal.jstr "H"), ("company", JVal.jstr "Acme Corp"),
      ("score", JVal.jnum (9/10))]]
    [Prospect.mk "H" "u" "d" "scan"]
    (.jstr "Acme Corp") (Prospect.mk "H" "u" "d" "scan")
    (by
      have hassign : assignCompany "H"
          [[("headline", JVal.jstr "H"), ("company", JVal.jstr "Acme Corp"),
            ("score", JVal.jnum (9/10))]] = some (.jstr "Acme Corp") := by
        have hpf := pyFloat_orZero_jnum (9/10)
        have hcut : RELEVANCE_CUTOFF ≤ (9/10 : ℚ) := by
          norm_num [RELEVANCE_CUTOFF]
        simp [assignCompany, dictGet, dictFind, pyEqStr, hpf, hcut]
      simp [scanGroups, hassign])

/-- C2 counterexample: a stored profile for `"Acme Corp"` with user-set
status `"Contacted"` has its status replaced by `"New"` when the scan
writes the company again. -/
theorem scan_overwrites_status_counterexample :
    (clientsLookup
        (scanClientUpsert
          [("Acme Corp",
            ⟨JVal.jstr "old summary", [JVal.jstr "Industrial"], "Contacted",
              none, none⟩)]
          "Acme Corp" (JVal.jstr "new summary") (JVal.jstr "Food") none none)
        "Acme Corp").map ClientRow.status = some "New" ∧
    ("New" : String) ≠ "Contacted" := by
  constructor
  · rfl
  · decide

/-- C2 amended: whenever the scan aggregates signals for a company, it
unconditionally INSERT-OR-REPLACEs the client row with status `"New"`,
overwriting any previously stored (including user-set) status. -/
theorem scan_client_status_always_new (db : ClientsTable) (co : String)
    (summary sector : JVal) (lat lon : Option ℚ) :
    (clientsLookup (scanClientUpsert db co summary sector lat lon) co).map
        ClientRow.status = some "New" := by
  simp [scanClientUpsert, clientsUpsert, clientsLookup]

/-- C3 counterexample: running the write step twice with the same
single-row candidate set leaves two rows in `signals`, not one. -/
theorem write_signals_duplicates_counterexample :
    (write_signals
        [⟨JVal.jstr "Acme Corp", "20250102", "Acme breaks ground", "u", "scan",
          JVal.jnum 1, JVal.jstr "Industrial", none, none⟩]
        (write_signals
          [⟨JVal.jstr "Acme Corp", "20250102", "Acme breaks ground", "u", "scan",
            JVal.jnum 1, JVal.jstr "Industrial", none, none⟩]
          [])).length = 2 ∧
    (write_signals
        [⟨JVal.jstr "Acme Corp", "20250102", "Acme breaks ground", "u", "scan",
          JVal.jnum 1, JVal.jstr "Industrial", none, none⟩]
        []).length = 1 ∧
    (2 : ℕ) ≠ 1 := by
  refine ⟨rfl, rfl, by decide⟩

/-- C3 amended: `write_signals` appends with plain `INSERT` and the
`signals` schema has no uniqueness constraint, so writing the same
candidate set twice adds its rows twice — the row count grows by
`2 * |rows|` instead of being idempotent. -/
theorem write_signals_not_idempotent (rows table : List SignalRow) :
    (write_signals rows (write_signals rows table)).length =
      table.length + 2 * rows.length := by
  simp [write_signals, two_mul]

end LeadMaster
